import Mathlib

/-!
Verification of the tree/overlay data model and interaction logic of
`memo.py` (a tkinter mind-map editor).  The Python code manipulates JSON
dicts; each dict is embedded as a `Node`, where an `Option` field models a
possibly-absent dict key.  Python's object-identity comparisons (`is`) are
rendered as structural equality: in every state the code cares about, node
ids are unique, so the two coincide.  Stacks (Python lists used with
`append`/`pop` at the end) are embedded as Lean lists with the top at the
head.  All definitions are translated from `memo.py`; line numbers in the
comments refer to that file.
-/

namespace Rootin

mutual
/-- A node of the forest: the JSON dict `{id?, name?, memo?, x?, y?, children}`
handled throughout `memo.py`.  A missing `"children"` key is identified with
the empty list (`ensure_ids` installs `[]`, and every traversal uses
`node.get("children", [])`). -/
inductive Node : Type where
  | mk (id : Option String) (name : Option String) (memo : Option String)
       (x : Option Int) (y : Option Int) (children : NodeList)

/-- A list of nodes (the `children` value, and the forest `tree_data`). -/
inductive NodeList : Type where
  | nil
  | cons (n : Node) (l : NodeList)
end

def Node.id : Node → Option String
  | .mk i _ _ _ _ _ => i

def Node.name : Node → Option String
  | .mk _ nm _ _ _ _ => nm

def Node.memo : Node → Option String
  | .mk _ _ me _ _ _ => me

def Node.children : Node → NodeList
  | .mk _ _ _ _ _ cs => cs

mutual
/-- Structural equality of nodes (used where Python compares dicts with `==`
or objects with `is`; the two agree because node values are pairwise distinct
in the states the gestures operate on — ids are unique). -/
def nodeBeq : Node → Node → Bool
  | .mk i1 n1 m1 x1 y1 c1, .mk i2 n2 m2 x2 y2 c2 =>
    i1 == i2 && n1 == n2 && m1 == m2 && x1 == x2 && y1 == y2 && nodeListBeq c1 c2

def nodeListBeq : NodeList → NodeList → Bool
  | .nil, .nil => true
  | .cons a l, .cons b m => nodeBeq a b && nodeListBeq l m
  | _, _ => false
end

instance : BEq Node := ⟨nodeBeq⟩
instance : BEq NodeList := ⟨nodeListBeq⟩

def NodeList.append : NodeList → NodeList → NodeList
  | .nil, m => m
  | .cons n l, m => .cons n (l.append m)

/-- `TreeModel.get_node_by_id` (lines 140-149): pre-order depth-first search
for the first node whose `"id"` equals `target_id`. -/
def get_node_by_id (tid : String) : NodeList → Option Node
  | .nil => none
  | .cons (.mk i nm me x y cs) rest =>
    if i == some tid then some (.mk i nm me x y cs)
    else match get_node_by_id tid cs with
      | some r => some r
      | none => get_node_by_id tid rest

mutual
/-- `TreeCanvas.is_descendant(parent, candidate)` (lines 656-662): true when
`candidate` is `parent` itself or occurs anywhere in `parent`'s subtree. -/
def is_descendant : Node → Node → Bool
  | .mk i nm me x y cs, cand =>
    nodeBeq (Node.mk i nm me x y cs) cand || is_descendant_list cs cand

def is_descendant_list : NodeList → Node → Bool
  | .nil, _ => false
  | .cons n rest, cand => is_descendant n cand || is_descendant_list rest cand
end

mutual
/-- Detaching a node: `get_parent` followed by `parent["children"].remove(node)`
when the node has a parent, or `tree_data.remove(node)` when it is a root
(the shape shared by `delete_node`, lines 582-592, and the trash branch of
`on_node_release`, lines 460-470).  Removes the first pre-order occurrence —
the search order of `get_parent_in_forest` — and reports whether one was
found (Python's `try/except ValueError: pass` makes absence a no-op). -/
def remove_node : Node → NodeList → NodeList × Bool
  | _, .nil => (.nil, false)
  | x, .cons n rest =>
    if nodeBeq n x then (rest, true)
    else
      let inner := remove_inside x n
      if inner.2 then (.cons inner.1 rest, true)
      else
        let outer := remove_node x rest
        (.cons n outer.1, outer.2)

def remove_inside : Node → Node → Node × Bool
  | x, .mk i nm me xx yy cs =>
    let r := remove_node x cs
    (.mk i nm me xx yy r.1, r.2)
end

/-- Detaching for the reparent branch of `on_node_release` (lines 487-492):
the node is removed from its parent's children list, but when it is a root
(`get_parent` returns `None`) it is *not* removed from `tree_data` — that
branch has no `tree_data.remove`. -/
def remove_from_parent (x : Node) : NodeList → NodeList
  | .nil => .nil
  | .cons n rest =>
    if nodeBeq n x then .cons n rest
    else
      let inner := remove_inside x n
      if inner.2 then .cons inner.1 rest
      else .cons n (remove_from_parent x rest)

mutual
/-- `target_node.setdefault("children", []).append(node)` (line 493): append
`x` to the children of the first (pre-order) node equal to `t`; reports
whether the target was found. -/
def append_child (t x : Node) : NodeList → NodeList × Bool
  | .nil => (.nil, false)
  | .cons n rest =>
    let inner := append_child_node t x n
    if inner.2 then (.cons inner.1 rest, true)
    else
      let outer := append_child t x rest
      (.cons n outer.1, outer.2)

def append_child_node (t x : Node) : Node → Node × Bool
  | .mk i nm me xx yy cs =>
    if nodeBeq (.mk i nm me xx yy cs) t then
      (.mk i nm me xx yy (cs.append (.cons x .nil)), true)
    else
      let inner := append_child t x cs
      (.mk i nm me xx yy inner.1, inner.2)
end

/-- The target-resolution loop of `on_node_release` (lines 477-484): walk the
overlapping canvas items (given here as the node ids they are mapped to by
`canvas_node_map`) and stop at the first candidate that is neither the
dragged node nor one of its descendants.  A stale id (no node found:
`candidate = None`) passes Python's guard with `target_node = None` and
breaks the loop, which is the `none` result here. -/
def resolve_target (forest : NodeList) (dragged : Node) : List String → Option Node
  | [] => none
  | cid :: rest =>
    match get_node_by_id cid forest with
    | none => none
    | some cand =>
      if nodeBeq cand dragged || is_descendant dragged cand then
        resolve_target forest dragged rest
      else some cand

/-- A history snapshot: the deep copy of `{"tree_data": .., "extra_edges": ..}`
pushed by `push_undo`/`undo`/`redo` (lines 114-138).  Deep copies are value
semantics here. -/
abbrev Snapshot := NodeList × List (String × String)

/-- The `TreeModel` state (lines 61-74): forest, overlay edges, the id
counter and the two history stacks (stack top at the head). -/
structure TreeModel where
  tree_data : NodeList
  extra_edges : List (String × String)
  next_id : Nat
  undo_stack : List Snapshot
  redo_stack : List Snapshot

/-- `TreeModel.push_undo` (lines 114-116): snapshot the current state onto
the undo stack and clear the redo stack. -/
def push_undo (m : TreeModel) : TreeModel :=
  { m with undo_stack := (m.tree_data, m.extra_edges) :: m.undo_stack,
           redo_stack := [] }

/-- The user-visible notices shown by `messagebox.showinfo` in `undo`/`redo`
(lines 126 and 137). -/
inductive Notice : Type where
  | nothingToUndo
  | nothingToRedo
deriving DecidableEq

/-- Result of `undo`/`redo`: the returned flag, the notice (if any) and the
model afterwards. -/
structure StepResult where
  ok : Bool
  notice : Option Notice
  model : TreeModel

/-- `TreeModel.undo` (lines 118-127): on a non-empty undo stack, push the
current state onto the redo stack and restore the popped snapshot; on an
empty stack, report "nothing to undo" and change nothing. -/
def undo (m : TreeModel) : StepResult :=
  match m.undo_stack with
  | [] => ⟨false, some .nothingToUndo, m⟩
  | s :: rest =>
    ⟨true, none,
     { tree_data := s.1, extra_edges := s.2, next_id := m.next_id,
       undo_stack := rest,
       redo_stack := (m.tree_data, m.extra_edges) :: m.redo_stack }⟩

/-- `TreeModel.redo` (lines 129-138): symmetric to `undo`. -/
def redo (m : TreeModel) : StepResult :=
  match m.redo_stack with
  | [] => ⟨false, some .nothingToRedo, m⟩
  | s :: rest =>
    ⟨true, none,
     { tree_data := s.1, extra_edges := s.2, next_id := m.next_id,
       undo_stack := (m.tree_data, m.extra_edges) :: m.undo_stack,
       redo_stack := rest }⟩

/-- A mutating operation in the sense of the undo contract: the caller has
already invoked `push_undo`, and the mutation replaces the forest and the
overlay (every mutator in `memo.py` — rename, memo edit, node add/delete,
reparent, edge add/remove, reset — has this shape) while touching neither
history stack nor the counter-independent history discipline. -/
def apply_op (op : Snapshot → Snapshot) (m : TreeModel) : TreeModel :=
  { m with tree_data := (op (m.tree_data, m.extra_edges)).1,
           extra_edges := (op (m.tree_data, m.extra_edges)).2 }

/-- Outcome of the pending-link press: the edge was appended, or rejected as
a self-loop (`messagebox.showwarning`, line 397/675) or as a duplicate
(`messagebox.showinfo`, line 409/687). -/
inductive LinkOutcome : Type where
  | added
  | selfLoopRejected
  | duplicateRejected
deriving DecidableEq

/-- The pending-link branch shared verbatim by `on_node_press` (lines
386-412) and `on_canvas_press` (lines 664-690): with a pending child, a
press resolving to node `parent_id` rejects `parent_id == child["id"]`,
rejects an existing `(parent_id, child_id)` edge, and otherwise pushes an
undo snapshot and appends the edge. -/
def add_extra_edge (m : TreeModel) (parent_id child_id : String) :
    TreeModel × LinkOutcome :=
  if parent_id == child_id then (m, .selfLoopRejected)
  else if m.extra_edges.any (fun e => e.1 == parent_id && e.2 == child_id) then
    (m, .duplicateRejected)
  else
    ({ push_undo m with extra_edges := m.extra_edges ++ [(parent_id, child_id)] },
     .added)

/-- `TreeCanvas.delete_node` (lines 580-595, the context-menu delete):
undo snapshot, detach the node from its owner, and drop every overlay edge
whose `parentId` or `childId` equals the node's id.  (`node["id"]` is read
unconditionally; comparing with `some` renders the string lookup.) -/
def delete_node (m : TreeModel) (node : Node) : TreeModel :=
  let m1 := push_undo m
  { m1 with
    tree_data := (remove_node node m1.tree_data).1,
    extra_edges :=
      m1.extra_edges.filter fun e => !(some e.1 == node.id) && !(some e.2 == node.id) }

/-- The trash branch of `TreeCanvas.on_node_release` (lines 458-473): undo
snapshot and detach the dragged node from its owner.  This branch performs
no overlay-edge cleanup. -/
def on_node_release_trash (m : TreeModel) (dragged : Node) : TreeModel :=
  let m1 := push_undo m
  { m1 with tree_data := (remove_node dragged m1.tree_data).1 }

/-- The reparent branch of `TreeCanvas.on_node_release` (lines 474-497):
resolve a target among the overlapping items; with no valid target the model
is only re-saved; otherwise undo snapshot, detach the dragged node from its
parent (roots stay in `tree_data`, see `remove_from_parent`) and append it
to the target's children. -/
def on_node_release_reparent (m : TreeModel) (dragged : Node)
    (candidates : List String) : TreeModel :=
  match resolve_target m.tree_data dragged candidates with
  | none => m
  | some t =>
    let m1 := push_undo m
    { m1 with
      tree_data := (append_child t dragged (remove_from_parent dragged m1.tree_data)).1 }

/-- `TreeCanvas.add_child_node` (lines 597-605): undo snapshot, build a new
node carrying the next id, advance the counter and append the node to the
chosen parent's children. -/
def add_child_node (m : TreeModel) (parent : Node) (new_name : String) : TreeModel :=
  let m1 := push_undo m
  let new_node : Node := .mk (some (toString m1.next_id)) (some new_name) (some "") none none .nil
  { m1 with
    next_id := m1.next_id + 1,
    tree_data := (append_child parent new_node m1.tree_data).1 }

/-- `TreeViewPanel.reset_tree` (lines 828-837): undo snapshot, replace the
forest with the single default root `{"name": "루트", "memo": "", "children": []}`
and clear the overlay.  Note: the fresh root carries no `"id"` key and
`ensure_ids` is not called. -/
def reset_tree (m : TreeModel) : TreeModel :=
  let m1 := push_undo m
  { m1 with
    tree_data := .cons (Node.mk none (some "루트") (some "") none none .nil) .nil,
    extra_edges := [] }

/-- The `num >= self.next_id` bump of `ensure_ids` (lines 93-98): ids whose
string parses as an integer push the counter past themselves; unparsable ids
are ignored (`except: pass`).  `String.toInt?` renders Python's `int()`. -/
def bump_next_id (nid : Nat) (s : String) : Nat :=
  match s.toInt? with
  | some num => if (nid : Int) ≤ num then num.toNat + 1 else nid
  | none => nid

/-- `TreeModel.ensure_ids` (lines 87-104): walk the forest in pre-order,
assigning `str(next_id)` to nodes lacking an id (advancing the counter),
bumping the counter past numeric ids, and defaulting a missing memo to `""`.
Returns the final counter together with the updated forest. -/
def ensure_ids : Nat → NodeList → Nat × NodeList
  | nid, .nil => (nid, .nil)
  | nid, .cons (.mk i nm me x y cs) rest =>
    let own : Nat × Option String :=
      match i with
      | none => (nid + 1, some (toString nid))
      | some s => (bump_next_id nid s, some s)
    let pc := ensure_ids own.1 cs
    let pr := ensure_ids pc.1 rest
    (pr.1, .cons (.mk own.2 nm (some (me.getD "")) x y pc.2) pr.2)

/-- Every node of the forest carries an `"id"` key. -/
def ids_present : NodeList → Bool
  | .nil => true
  | .cons (.mk i _ _ _ _ cs) rest => i.isSome && ids_present cs && ids_present rest

/-- The ids of the forest in pre-order (`none` for a node without one). -/
def idsOf : NodeList → List (Option String)
  | .nil => []
  | .cons (.mk i _ _ _ _ cs) rest => i :: (idsOf cs ++ idsOf rest)

/-- Every node carries both an `"id"` and a `"memo"` key — true of every
state `ensure_ids` or the node constructors have produced, and exactly the
condition under which `ensure_ids` is the identity on the forest. -/
def wfForest : NodeList → Bool
  | .nil => true
  | .cons (.mk i _ me _ _ cs) rest =>
    i.isSome && me.isSome && wfForest cs && wfForest rest

mutual
/-- The JSON values exchanged by `json.dump`/`json.load` (lines 76-112).
Numbers are the integral coordinates the model stores. -/
inductive Json : Type where
  | null
  | str (s : String)
  | num (n : Int)
  | arr (elems : JsonList)
  | obj (fields : JsonObj)

inductive JsonList : Type where
  | nil
  | cons (j : Json) (l : JsonList)

inductive JsonObj : Type where
  | nil
  | cons (k : String) (v : Json) (l : JsonObj)
end

/-- Dict lookup, `data.get(key)`: with duplicate keys `json.load` keeps the
last occurrence, so the lookup prefers later fields. -/
def jget (k : String) : JsonObj → Option Json
  | .nil => none
  | .cons k' v rest =>
    match jget k rest with
    | some w => some w
    | none => if k' == k then some v else none

def asString : Json → Option String
  | .str s => some s
  | _ => none

def asInt : Json → Option Int
  | .num n => some n
  | _ => none

def optStrField (k : String) (o : Option String) (rest : JsonObj) : JsonObj :=
  match o with
  | some s => .cons k (.str s) rest
  | none => rest

def optIntField (k : String) (o : Option Int) (rest : JsonObj) : JsonObj :=
  match o with
  | some n => .cons k (.num n) rest
  | none => rest

mutual
/-- Serialization of one node as `json.dump` writes its dict (line 112):
exactly the keys the dict carries, with `children` as a nested array. -/
def nodeToJson : Node → Json
  | .mk i nm me x y cs =>
    .obj (optStrField "id" i (optStrField "name" nm (optStrField "memo" me
      (optIntField "x" x (optIntField "y" y
        (.cons "children" (.arr (nodeListToJson cs)) .nil))))))

def nodeListToJson : NodeList → JsonList
  | .nil => .nil
  | .cons n rest => .cons (nodeToJson n) (nodeListToJson rest)
end

mutual
/-- Reading one node back out of a parsed JSON value: the field accesses
`node["id"]`, `node.get("memo", "")` etc. performed across `memo.py`,
gathered into a `Node`.  Only objects denote nodes; unknown keys are
ignored, later duplicate keys win (as in a Python dict). -/
def parseNode : Json → Option Node
  | .obj fields => some (parseFields fields none none none none none .nil)
  | _ => none

def parseFields : JsonObj → Option String → Option String → Option String →
    Option Int → Option Int → NodeList → Node
  | .nil, i, nm, me, x, y, cs => .mk i nm me x y cs
  | .cons k v rest, i, nm, me, x, y, cs =>
    if k == "id" then parseFields rest (asString v) nm me x y cs
    else if k == "name" then parseFields rest i (asString v) me x y cs
    else if k == "memo" then parseFields rest i nm (asString v) x y cs
    else if k == "x" then parseFields rest i nm me (asInt v) y cs
    else if k == "y" then parseFields rest i nm me x (asInt v) cs
    else if k == "children" then
      parseFields rest i nm me x y
        (match v with
         | .arr js => parseNodeList js
         | _ => .nil)
    else parseFields rest i nm me x y cs

def parseNodeList : JsonList → NodeList
  | .nil => .nil
  | .cons j l =>
    match parseNode j with
    | some n => .cons n (parseNodeList l)
    | none => parseNodeList l
end

/-- Serialization of the overlay: each edge as the two-element array
`[parentId, childId]`. -/
def edgesToJson : List (String × String) → JsonList
  | [] => .nil
  | e :: rest => .cons (.arr (.cons (.str e.1) (.cons (.str e.2) .nil))) (edgesToJson rest)

/-- Reading the overlay back: two-element string arrays become edges. -/
def parseEdges : JsonList → List (String × String)
  | .nil => []
  | .cons (.arr (.cons (.str p) (.cons (.str c) .nil))) rest => (p, c) :: parseEdges rest
  | .cons _ rest => parseEdges rest

/-- `TreeModel.save_tree` (lines 106-112): the persisted document
`{"tree_data": [...], "extra_edges": [...]}`. -/
def save_tree (m : TreeModel) : Json :=
  .obj (.cons "tree_data" (.arr (nodeListToJson m.tree_data))
    (.cons "extra_edges" (.arr (edgesToJson m.extra_edges)) .nil))

/-- The default single-root document substituted by `load_raw_data` and
`__init__` (lines 70, 83-85): `{"name": "루트", "memo": "", "children": []}`. -/
def defaultForest : NodeList :=
  .cons (Node.mk none (some "루트") (some "") none none .nil) .nil

/-- `TreeModel.__init__` (lines 62-74) applied to a parsed document: a dict
with a `"tree_data"` key yields forest and overlay (missing `"extra_edges"`
defaults to `[]`); a bare array is the legacy format with an empty overlay;
anything else falls back to the default root.  `ensure_ids` then runs from
counter 1, and both history stacks start empty. -/
def load_model (j : Json) : TreeModel :=
  let raw : NodeList × List (String × String) :=
    match j with
    | .obj fields =>
      match jget "tree_data" fields with
      | some tv =>
        (match tv with
         | .arr js => parseNodeList js
         | _ => .nil,
         match jget "extra_edges" fields with
         | some (.arr js) => parseEdges js
         | _ => [])
      | none => (defaultForest, [])
    | .arr js => (parseNodeList js, [])
    | _ => (defaultForest, [])
  let fixed := ensure_ids 1 raw.1
  { tree_data := fixed.2, extra_edges := raw.2, next_id := fixed.1,
    undo_stack := [], redo_stack := [] }

/-- `canvas.scale(tag, x, y, f, f)`: every coordinate moves to
`origin + (old - origin) * factor`, leaving the anchor fixed. -/
def zoom_point (p : ℚ × ℚ) (f : ℚ) (q : ℚ × ℚ) : ℚ × ℚ :=
  (p.1 + (q.1 - p.1) * f, p.2 + (q.2 - p.2) * f)

/-- The view state `TreeCanvas.zoom` acts on: the cumulative
`current_scale` and the coordinates of the rendered canvas items. -/
structure CanvasView where
  current_scale : ℚ
  items : List (ℚ × ℚ)

/-- `TreeCanvas.zoom` (lines 208-224) at anchor `p` with factor `f`: every
item is rescaled about `p` and `current_scale` is multiplied by `f`.
(The handler derives `f` from the wheel event — 1.1 or 0.9 per notch — and
`p` from the pointer; the transform itself is this map.) -/
def zoom (p : ℚ × ℚ) (f : ℚ) (v : CanvasView) : CanvasView :=
  ⟨v.current_scale * f, v.items.map (zoom_point p f)⟩

/-- The model state `TreeModel()` builds when no saved file exists: the
default root, ids assigned, counter advanced, empty history. -/
def initial_model : TreeModel := load_model Json.null

/-- A concrete child node (id "2") used to exercise the operations. -/
def exChild : Node := .mk (some "2") (some "A") (some "") none none .nil

/-- A concrete root (id "1") owning `exChild`. -/
def exRoot : Node := .mk (some "1") (some "루트") (some "") none none (.cons exChild .nil)

/-- A concrete model: the root with one child, two overlay edges — one of
them, `("2", "3")`, incident to `exChild`'s id. -/
def exModel : TreeModel :=
  { tree_data := .cons exRoot .nil,
    extra_edges := [("7", "8"), ("2", "3")],
    next_id := 4, undo_stack := [], redo_stack := [] }

/-- The state immediately after pressing the reset button on the initial
model. -/
def exReset : TreeModel := reset_tree initial_model

/-- The duplicate check of the pending-link branch succeeds exactly when the
ordered pair is already in the overlay. -/
theorem any_edge_iff (es : List (String × String)) (A B : String) :
    (es.any fun e => e.1 == A && e.2 == B) = true ↔ (A, B) ∈ es := by
  simp only [List.any_eq_true, Bool.and_eq_true, beq_iff_eq]
  constructor
  · rintro ⟨⟨e1, e2⟩, he, h1, h2⟩
    dsimp at h1 h2
    subst h1; subst h2
    exact he
  · intro h
    exact ⟨(A, B), h, rfl, rfl⟩

/-- When every overlapping candidate resolves to a descendant of the dragged
node (or fails to resolve), the release loop finds no target. -/
theorem resolve_target_eq_none (forest : NodeList) (dragged : Node) :
    ∀ cands : List String,
      (∀ cid ∈ cands, ∀ cand, get_node_by_id cid forest = some cand →
        is_descendant dragged cand = true) →
      resolve_target forest dragged cands = none := by
  intro cands
  induction cands with
  | nil => intro _; rfl
  | cons cid rest ih =>
    intro h
    simp only [resolve_target]
    cases hg : get_node_by_id cid forest with
    | none => rfl
    | some cand =>
      have hd : is_descendant dragged cand = true := h cid (by simp) cand hg
      simp only [hg, hd, Bool.or_true, if_true]
      exact ih fun c hc n hn => h c (List.mem_cons_of_mem _ hc) n hn

/-- Any target the release loop does resolve is neither the dragged node nor
one of its descendants. -/
theorem resolve_target_not_descendant (forest : NodeList) (dragged : Node) :
    ∀ (cands : List String) (t : Node),
      resolve_target forest dragged cands = some t →
      nodeBeq t dragged = false ∧ is_descendant dragged t = false := by
  intro cands
  induction cands with
  | nil => intro t h; exact absurd h (by simp [resolve_target])
  | cons cid rest ih =>
    intro t h
    simp only [resolve_target] at h
    cases hg : get_node_by_id cid forest with
    | none => rw [hg] at h; exact absurd h (by simp)
    | some cand =>
      simp only [hg] at h
      by_cases hcond : (nodeBeq cand dragged || is_descendant dragged cand) = true
      · rw [if_pos hcond] at h
        exact ih t h
      · rw [if_neg hcond] at h
        have hfalse : (nodeBeq cand dragged || is_descendant dragged cand) = false := by
          simpa using hcond
        simp only [Bool.or_eq_false_iff] at hfalse
        cases h
        exact ⟨hfalse.1, hfalse.2⟩

mutual
/-- Decoding inverts encoding for a single node. -/
theorem parseNode_nodeToJson : ∀ n : Node, parseNode (nodeToJson n) = some n
  | .mk i nm me x y cs => by
    have ih := parseNodeList_nodeListToJson cs
    cases i <;> cases nm <;> cases me <;> cases x <;> cases y <;>
      simp [nodeToJson, parseNode, parseFields, optStrField, optIntField,
            asString, asInt, ih]

/-- Decoding inverts encoding for a list of nodes. -/
theorem parseNodeList_nodeListToJson : ∀ l : NodeList, parseNodeList (nodeListToJson l) = l
  | .nil => rfl
  | .cons n rest => by
    simp [nodeListToJson, parseNodeList, parseNode_nodeToJson n,
          parseNodeList_nodeListToJson rest]
end

/-- Decoding inverts encoding for the overlay. -/
theorem parseEdges_edgesToJson : ∀ es : List (String × String), parseEdges (edgesToJson es) = es
  | [] => rfl
  | e :: rest => by
    simp [edgesToJson, parseEdges, parseEdges_edgesToJson rest]

/-- On a forest whose nodes all carry ids and memos — every forest the
operations themselves produce — `ensure_ids` changes nothing. -/
theorem ensure_ids_of_wf : ∀ (ns : NodeList) (nid : Nat),
    wfForest ns = true → (ensure_ids nid ns).2 = ns
  | .nil, _, _ => rfl
  | .cons (.mk i nm me x y cs) rest, nid, h => by
    simp only [wfForest, Bool.and_eq_true] at h
    obtain ⟨⟨⟨hi, hme⟩, hcs⟩, hrest⟩ := h
    obtain ⟨s, rfl⟩ := Option.isSome_iff_exists.mp hi
    obtain ⟨mm, rfl⟩ := Option.isSome_iff_exists.mp hme
    simp only [ensure_ids, Option.getD]
    rw [ensure_ids_of_wf cs _ hcs, ensure_ids_of_wf rest _ hrest]

/-- C1 (counterexample): the claim says every deleting operation cascades
overlay cleanup, but the drag-release-over-trash delete does not.  In
`exModel`, trash-deleting `exChild` (id "2") removes the node from the
forest, yet the overlay still contains the edge `("2", "3")`, whose
`parentId` equals the deleted node's id. -/
theorem c1_trash_delete_keeps_incident_edge :
    get_node_by_id "2" (on_node_release_trash exModel exChild).tree_data = none ∧
    ("2", "3") ∈ (on_node_release_trash exModel exChild).extra_edges ∧
    exChild.id = some "2" :=
  ⟨rfl, by decide, rfl⟩

/-- C1 (amended): the context-menu delete removes from the overlay every
extra edge whose `parentId` or `childId` equals the node's id, and cannot
fail (it is a total function); the drag-release-over-trash delete removes
the node but leaves the overlay unchanged. -/
theorem c1_delete_edge_cleanup (m : TreeModel) (x : Node) :
    (∀ e ∈ (delete_node m x).extra_edges, some e.1 ≠ x.id ∧ some e.2 ≠ x.id) ∧
    (on_node_release_trash m x).extra_edges = m.extra_edges := by
  constructor
  · intro e he
    simp only [delete_node, push_undo, List.mem_filter, Bool.and_eq_true,
      Bool.not_eq_true', beq_eq_false_iff_ne, ne_eq] at he
    exact ⟨he.2.1, he.2.2⟩
  · rfl

/-- C1 (witness): the amended theorem applied to the concrete model. -/
theorem c1_delete_edge_cleanup_witness :
    (some "7" ≠ exChild.id ∧ some "8" ≠ exChild.id) ∧
    (on_node_release_trash exModel exChild).extra_edges = exModel.extra_edges :=
  ⟨(c1_delete_edge_cleanup exModel exChild).1 ("7", "8") (by decide),
   (c1_delete_edge_cleanup exModel exChild).2⟩

/-- C2: a drag of `N` released over a region whose overlapping candidates
all resolve to descendants of `N` (`N` itself included, since
`is_descendant` holds reflexively) leaves the model — undo stacks, forest,
overlay — entirely unchanged; and whenever the release loop does resolve a
reparent target, that target is not a descendant of `N`, so appending `N`'s
subtree under it cannot close a cycle in the ownership graph. -/
theorem c2_reparent_rejects_descendants (m : TreeModel) (dragged : Node)
    (cands : List String) :
    ((∀ cid ∈ cands, ∀ cand, get_node_by_id cid m.tree_data = some cand →
        is_descendant dragged cand = true) →
      on_node_release_reparent m dragged cands = m) ∧
    (∀ t, resolve_target m.tree_data dragged cands = some t →
      is_descendant dragged t = false) := by
  constructor
  · intro h
    unfold on_node_release_reparent
    rw [resolve_target_eq_none m.tree_data dragged cands h]
  · intro t ht
    exact (resolve_target_not_descendant m.tree_data dragged cands t ht).2

/-- C2 (witness): dropping the root `exRoot` onto its child (id "2") changes
nothing, and the target resolved when dragging `exChild` onto the root is
not one of `exChild`'s descendants. -/
theorem c2_reparent_rejects_descendants_witness :
    on_node_release_reparent exModel exRoot ["2"] = exModel ∧
    is_descendant exChild exRoot = false :=
  ⟨(c2_reparent_rejects_descendants exModel exRoot ["2"]).1
    (by
      intro cid hcid cand hg
      have hc : cid = "2" := by simpa using hcid
      subst hc
      have h2 : get_node_by_id "2" exModel.tree_data = some exChild := rfl
      rw [h2] at hg
      cases hg
      decide),
   (c2_reparent_rejects_descendants exModel exChild ["1"]).2 exRoot rfl⟩

/-- C3: after `push_undo` followed by any mutation of forest and overlay,
`undo` succeeds and restores exactly the pre-operation forest and overlay,
and a subsequent `redo` succeeds and restores exactly the post-operation
forest and overlay. -/
theorem c3_undo_redo_inverse (m : TreeModel) (op : Snapshot → Snapshot) :
    (undo (apply_op op (push_undo m))).ok = true ∧
    (undo (apply_op op (push_undo m))).model.tree_data = m.tree_data ∧
    (undo (apply_op op (push_undo m))).model.extra_edges = m.extra_edges ∧
    (redo (undo (apply_op op (push_undo m))).model).ok = true ∧
    (redo (undo (apply_op op (push_undo m))).model).model.tree_data
      = (apply_op op (push_undo m)).tree_data ∧
    (redo (undo (apply_op op (push_undo m))).model).model.extra_edges
      = (apply_op op (push_undo m)).extra_edges :=
  ⟨rfl, rfl, rfl, rfl, rfl, rfl⟩

/-- C4 (code bug): the fresh root installed by `reset_tree` carries no
`"id"` key at all (`ensure_ids` is never called on it), so after a reset the
forest violates "every node has a globally unique id" — while the initial
model does satisfy it. -/
theorem c4_reset_leaves_root_without_id :
    ids_present initial_model.tree_data = true ∧
    idsOf (reset_tree initial_model).tree_data = [none] ∧
    ids_present (reset_tree initial_model).tree_data = false :=
  ⟨rfl, rfl, rfl⟩

/-- C5: a self-loop `addExtraEdge(A, A)` is rejected and the whole model is
left untouched; and for `A ≠ B` with `(A, B)` not yet present, adding
`(A, B)` twice leaves exactly one `(A, B)` in the overlay — the second
attempt is rejected as a duplicate and is a no-op. -/
theorem c5_extra_edge_validity (m : TreeModel) (A B : String) :
    ((add_extra_edge m A A).1 = m ∧ (add_extra_edge m A A).2 = .selfLoopRejected) ∧
    (A ≠ B → (A, B) ∉ m.extra_edges →
      ((add_extra_edge m A B).1.extra_edges.count (A, B) = 1 ∧
        add_extra_edge (add_extra_edge m A B).1 A B
          = ((add_extra_edge m A B).1, .duplicateRejected))) := by
  have hself : add_extra_edge m A A = (m, .selfLoopRejected) := by
    simp [add_extra_edge]
  refine ⟨⟨by rw [hself], by rw [hself]⟩, ?_⟩
  intro hne hmem
  have hAB : (A == B) = false := beq_eq_false_iff_ne.mpr hne
  have hany : (m.extra_edges.any fun e => e.1 == A && e.2 == B) = false := by
    cases hc : m.extra_edges.any fun e => e.1 == A && e.2 == B with
    | false => rfl
    | true => exact absurd ((any_edge_iff m.extra_edges A B).mp hc) hmem
  have h1 : add_extra_edge m A B
      = ({ push_undo m with extra_edges := m.extra_edges ++ [(A, B)] }, .added) := by
    simp [add_extra_edge, hAB, hany]
  have hext : (add_extra_edge m A B).1.extra_edges = m.extra_edges ++ [(A, B)] := by
    rw [h1]
  constructor
  · rw [hext, List.count_append, List.count_eq_zero.mpr hmem]
    simp
  · have hany2 : ((add_extra_edge m A B).1.extra_edges.any
        fun e => e.1 == A && e.2 == B) = true := by
      refine (any_edge_iff _ A B).mpr ?_
      rw [hext]
      simp
    simp [add_extra_edge, hAB, hany2, hmem]

/-- C5 (witness): the validity theorem applied to the concrete model with
`A = "4"`, `B = "5"`. -/
theorem c5_extra_edge_validity_witness :
    ((add_extra_edge exModel "4" "4").1 = exModel ∧
      (add_extra_edge exModel "4" "4").2 = .selfLoopRejected) ∧
    ((add_extra_edge exModel "4" "5").1.extra_edges.count ("4", "5") = 1 ∧
      add_extra_edge (add_extra_edge exModel "4" "5").1 "4" "5"
        = ((add_extra_edge exModel "4" "5").1, .duplicateRejected)) :=
  ⟨(c5_extra_edge_validity exModel "4" "5").1,
   (c5_extra_edge_validity exModel "4" "5").2 (by decide) (by decide)⟩

/-- C6 (counterexample): the state reached by pressing reset — a public
operation — does not round-trip: its root has no id, but the root of the
reloaded document has been assigned id "1" by `ensure_ids`, so
`load(save(state)) ≠ state`. -/
theorem c6_reset_state_not_roundtripped :
    (load_model (save_tree exReset)).tree_data ≠ exReset.tree_data :=
  fun h =>
    absurd (congrArg idsOf h : ([some "1"] : List (Option String)) = [none]) (by decide)

/-- C6 (amended): for every state whose nodes all carry ids and memos —
which covers every state reachable without the id-dropping reset of C4 —
saving and reloading reproduces the forest (ids, names, memos, stored
positions) and the overlay exactly. -/
theorem c6_save_load_roundtrip (m : TreeModel) (h : wfForest m.tree_data = true) :
    (load_model (save_tree m)).tree_data = m.tree_data ∧
    (load_model (save_tree m)).extra_edges = m.extra_edges := by
  constructor
  · show (ensure_ids 1 (parseNodeList (nodeListToJson m.tree_data))).2 = m.tree_data
    rw [parseNodeList_nodeListToJson]
    exact ensure_ids_of_wf m.tree_data 1 h
  · show parseEdges (edgesToJson m.extra_edges) = m.extra_edges
    exact parseEdges_edgesToJson m.extra_edges

/-- C6 (witness): the round-trip theorem applied to the concrete model. -/
theorem c6_save_load_roundtrip_witness :
    (load_model (save_tree exModel)).tree_data = exModel.tree_data ∧
    (load_model (save_tree exModel)).extra_edges = exModel.extra_edges :=
  c6_save_load_roundtrip exModel (by decide)

/-- C7: zooming twice at the same anchor multiplies the cumulative scale and
moves every item exactly as a single zoom by the product of the factors
would, and the anchor itself is a fixed point of the combined transform. -/
theorem c7_zoom_composition (p : ℚ × ℚ) (f1 f2 : ℚ) (v : CanvasView)
    (_h1 : 0 < f1) (_h2 : 0 < f2) :
    zoom p f2 (zoom p f1 v) = zoom p (f1 * f2) v ∧
    zoom_point p (f1 * f2) p = p := by
  obtain ⟨px, py⟩ := p
  constructor
  · unfold zoom
    simp only [List.map_map]
    have hf : zoom_point (px, py) f2 ∘ zoom_point (px, py) f1
        = zoom_point (px, py) (f1 * f2) := by
      funext q
      obtain ⟨qx, qy⟩ := q
      simp only [Function.comp_apply, zoom_point, Prod.mk.injEq]
      constructor <;> ring
    rw [hf]
    congr 1
    ring
  · simp only [zoom_point, Prod.mk.injEq]
    constructor <;> ring

/-- C7 (witness): the composition law at the anchor `(0, 0)`, factors 2 and
3, applied to a one-item view. -/
theorem c7_zoom_composition_witness :
    zoom ((0 : ℚ), (0 : ℚ)) 3 (zoom (0, 0) 2 ⟨1, [(1, 1)]⟩)
        = zoom (0, 0) (2 * 3) ⟨1, [(1, 1)]⟩ ∧
    zoom_point ((0 : ℚ), (0 : ℚ)) (2 * 3) (0, 0) = (0, 0) :=
  c7_zoom_composition (0, 0) 2 3 ⟨1, [(1, 1)]⟩ (by norm_num) (by norm_num)

/-- C8: on an empty undo stack, `undo` returns the failure flag and the
"nothing to undo" notice and leaves the model — forest, overlay and both
history stacks — exactly as it was (it is a total function, so it cannot
throw); `redo` on an empty redo stack behaves symmetrically. -/
theorem c8_empty_history_noop (m : TreeModel) :
    (m.undo_stack = [] → undo m = ⟨false, some .nothingToUndo, m⟩) ∧
    (m.redo_stack = [] → redo m = ⟨false, some .nothingToRedo, m⟩) := by
  constructor
  · intro h
    simp [undo, h]
  · intro h
    simp [redo, h]

/-- C8 (witness): the initial model has empty history stacks, so both
operations report failure and leave it unchanged. -/
theorem c8_empty_history_noop_witness :
    undo initial_model = ⟨false, some .nothingToUndo, initial_model⟩ ∧
    redo initial_model = ⟨false, some .nothingToRedo, initial_model⟩ :=
  ⟨(c8_empty_history_noop initial_model).1 rfl,
   (c8_empty_history_noop initial_model).2 rfl⟩

/-- C9: the context-menu delete touches only overlay edges incident to the
deleted node's own id: an edge survives it exactly when it was already
present and neither endpoint equals that id — in particular every edge
mentioning only other ids, including ids of the node's deleted descendants,
remains. -/
theorem c9_delete_overlay_frame (m : TreeModel) (x : Node) (e : String × String) :
    e ∈ (delete_node m x).extra_edges ↔
      e ∈ m.extra_edges ∧ some e.1 ≠ x.id ∧ some e.2 ≠ x.id := by
  simp only [delete_node, push_undo, List.mem_filter, Bool.and_eq_true,
    Bool.not_eq_true', beq_eq_false_iff_ne, ne_eq, and_assoc]

/-- C9 (witness): in the concrete model, deleting `exChild` (id "2") keeps
the edge `("7", "8")` — whose endpoints are ids of other (here: deleted
descendants' or unrelated) nodes — and drops the incident `("2", "3")`. -/
theorem c9_delete_overlay_frame_witness :
    ("7", "8") ∈ (delete_node exModel exChild).extra_edges ∧
    ¬ ("2", "3") ∈ (delete_node exModel exChild).extra_edges :=
  ⟨(c9_delete_overlay_frame exModel exChild ("7", "8")).mpr
      ⟨by decide, by decide, by decide⟩,
   fun h => absurd ((c9_delete_overlay_frame exModel exChild ("2", "3")).mp h).2.1
      (by decide)⟩

/-- With distinct ids and no existing `(A, B)` edge, the pending-link press
pushes an undo snapshot and appends the edge. -/
theorem add_extra_edge_added (m : TreeModel) (A B : String) (hne : A ≠ B)
    (hmem : (A, B) ∉ m.extra_edges) :
    add_extra_edge m A B
      = ({ push_undo m with extra_edges := m.extra_edges ++ [(A, B)] }, .added) := by
  simp [add_extra_edge, hne, hmem]

/-- C10: the duplicate check compares ordered pairs only: for `A ≠ B`, once
`(A, B)` is in the overlay, adding the reverse edge `(B, A)` still succeeds,
after which both directed edges are present. -/
theorem c10_duplicate_check_is_directed (m : TreeModel) (A B : String)
    (hne : A ≠ B) (hrev : (B, A) ∉ m.extra_edges) :
    (add_extra_edge (add_extra_edge m A B).1 B A).2 = .added ∧
    (A, B) ∈ (add_extra_edge (add_extra_edge m A B).1 B A).1.extra_edges ∧
    (B, A) ∈ (add_extra_edge (add_extra_edge m A B).1 B A).1.extra_edges := by
  have hAB : (A == B) = false := beq_eq_false_iff_ne.mpr hne
  have hBA : (B == A) = false := beq_eq_false_iff_ne.mpr fun h => hne h.symm
  have hne' : (B, A) ≠ (A, B) := by
    intro h
    exact hne (congrArg Prod.snd h)
  -- the first addition: whether or not `(A, B)` was present, afterwards it is,
  -- and the reverse edge still is not
  have key : (A, B) ∈ (add_extra_edge m A B).1.extra_edges ∧
      (B, A) ∉ (add_extra_edge m A B).1.extra_edges := by
    cases hany : m.extra_edges.any fun e => e.1 == A && e.2 == B with
    | true =>
      have hmem := (any_edge_iff m.extra_edges A B).mp hany
      constructor
      · simp [add_extra_edge, hne, hmem]
      · simpa [add_extra_edge, hne, hmem] using hrev
    | false =>
      have hmemf : (A, B) ∉ m.extra_edges := fun hm =>
        absurd ((any_edge_iff m.extra_edges A B).mpr hm) (by simp [hany])
      constructor
      · simp [add_extra_edge, hne, hmemf]
      · simp [add_extra_edge, hne, hmemf, hrev, hne']
  have h2 : add_extra_edge (add_extra_edge m A B).1 B A
      = ({ push_undo (add_extra_edge m A B).1 with
            extra_edges := (add_extra_edge m A B).1.extra_edges ++ [(B, A)] }, .added) :=
    add_extra_edge_added _ B A (fun h => hne h.symm) key.2
  refine ⟨by rw [h2], ?_, ?_⟩
  · rw [h2]
    exact List.mem_append_left _ key.1
  · rw [h2]
    simp

/-- C10 (witness): adding `("4", "5")` and then `("5", "4")` to the concrete
model succeeds and leaves both directed edges in the overlay. -/
theorem c10_duplicate_check_is_directed_witness :
    (add_extra_edge (add_extra_edge exModel "4" "5").1 "5" "4").2 = .added ∧
    ("4", "5") ∈ (add_extra_edge (add_extra_edge exModel "4" "5").1 "5" "4").1.extra_edges ∧
    ("5", "4") ∈ (add_extra_edge (add_extra_edge exModel "4" "5").1 "5" "4").1.extra_edges :=
  c10_duplicate_check_is_directed exModel "4" "5" (by decide) (by decide)

end Rootin
